import Mathlib

/-!
Verification of the distributed-coordination core of a multicast chat
runtime (TypeScript sources: `modules/1multicast/multicast.ts`,
`modules/1multicast/replication.ts`, `modules/2replication/reconciler.ts`
with `MutualExclusion` and `CheckpointManager`).

The embedding below translates the relevant classes into pure Lean
functions.  Stateful methods become functions `State → State × outputs`,
JavaScript `Set`s become duplicate-free lists in insertion order (so
`size` is `length`), and the `sendCallback` side effect becomes an
explicit list of emitted `Sent` records.  JavaScript string comparison
(`<` on strings, and `localeCompare` inside the queue sort) is modelled
by the executable lexicographic comparison `lexLtb` on the character
lists of the strings.
-/

/-- `Message` from `types.ts`: a chat message. -/
structure Message where
  id : String
  origin : String
  content : String
  timestamp : Nat
deriving DecidableEq, Repr

/-- `ControlMessageType` from `types.ts`. -/
inductive CMType
  | REQUEST
  | RESPONSE
  | RELEASE
deriving DecidableEq, Repr

/-- `ControlMessage` from `types.ts`: exactly the three wire fields,
no destination field exists. -/
structure ControlMessage where
  type : CMType
  originNode : String
  timestamp : Nat
deriving DecidableEq, Repr

/-- One invocation of `sendCallback` / `MulticastCommunicator.sendMessage`.
`dest` records the nominal destination argument of
`MutualExclusion.sendResponse` (which appears only in its log line);
`none` for plain broadcasts (REQUEST / RELEASE).  The wire payload is
`msg` alone. -/
structure Sent where
  dest : Option String
  msg : ControlMessage
deriving DecidableEq, Repr

/-- JS `Set.add`: insertion-ordered, no duplicates. -/
def setAdd (s : List String) (x : String) : List String :=
  if x ∈ s then s else s ++ [x]

/-- Lexicographic strict comparison of character lists: the model of
JavaScript's code-unit string comparison (`<` on strings, and the sign
of `localeCompare` for the plain identifiers used as node ids). -/
def lexLtb : List Char → List Char → Bool
  | [], [] => false
  | [], _ :: _ => true
  | _ :: _, [] => false
  | a :: as, b :: bs => if a < b then true else if b < a then false else lexLtb as bs

/-- JS `a < b` on strings. -/
def strLtb (a b : String) : Bool := lexLtb a.data b.data

/-- JS `a.localeCompare(b) <= 0` for plain identifiers. -/
def strLeb (a b : String) : Bool := !(strLtb b a)

/-- The private state of a `MutualExclusion` instance
(`reconciler.ts`, class `MutualExclusion`). -/
structure MEState where
  nodeId : String
  isResourceWaiting : Bool
  isResourceExisting : Bool
  timestamp : Nat
  queue : List (String × Nat)
  receivedMessages : List String
  knownNodes : List String
deriving DecidableEq, Repr

/-- A fresh coordinator for `nodeId` (constructor defaults). -/
def MEState.init (nodeId : String) : MEState :=
  ⟨nodeId, false, false, 0, [], [], []⟩

/-- `MutualExclusion.giveResource` (the granted callback is a pure side
effect on the application and is not part of coordinator state). -/
def giveResource (s : MEState) : MEState :=
  { s with isResourceExisting := true, isResourceWaiting := false }

/-- `MutualExclusion.verifyResponse`. -/
def verifyResponse (s : MEState) : MEState :=
  if s.receivedMessages.length ≥ s.knownNodes.length then giveResource s else s

/-- `MutualExclusion.sendResponse`: builds the RESPONSE wire message.
Note the message carries `originNode`/`timestamp` of the *sender* only;
`destination` is used in the log line but never placed on the wire. -/
def sendResponse (s : MEState) (destination : String) : Sent :=
  ⟨some destination, ⟨CMType.RESPONSE, s.nodeId, s.timestamp⟩⟩

/-- Comparator of `MutualExclusion.processQueue`'s `sort`:
`(timestamp asc, nodeId asc)`. -/
def qle (a b : String × Nat) : Prop :=
  a.2 < b.2 ∨ (a.2 = b.2 ∧ strLeb a.1 b.1 = true)

instance : DecidableRel qle := fun a b => by
  unfold qle; infer_instance

section LexOrderLemmas

/-- `lexLtb` is irreflexive. -/
theorem lexLtb_irrefl : ∀ a : List Char, lexLtb a a = false
  | [] => rfl
  | x :: xs => by simp [lexLtb, lt_irrefl, lexLtb_irrefl xs]

/-- `lexLtb` is transitive. -/
theorem lexLtb_trans : ∀ (a b c : List Char),
    lexLtb a b = true → lexLtb b c = true → lexLtb a c = true
  | [], [], _, _, hbc => hbc
  | [], _ :: _, [], _, hbc => by simp [lexLtb] at hbc
  | [], _ :: _, _ :: _, _, _ => rfl
  | _ :: _, [], _, hab, _ => by simp [lexLtb] at hab
  | _ :: _, _ :: _, [], _, hbc => by simp [lexLtb] at hbc
  | x :: xs, y :: ys, z :: zs, hab, hbc => by
    simp only [lexLtb] at hab hbc ⊢
    by_cases hxy : x < y
    · by_cases hyz : y < z
      · simp [lt_trans hxy hyz]
      · by_cases hzy : z < y
        · simp [hyz, hzy] at hbc
        · have hyz' : y = z := le_antisymm (not_lt.mp hzy) (not_lt.mp hyz)
          subst hyz'
          simp [hxy]
    · by_cases hyx : y < x
      · simp [hxy, hyx] at hab
      · have hxy' : x = y := le_antisymm (not_lt.mp hyx) (not_lt.mp hxy)
        subst hxy'
        simp only [lt_irrefl, if_false] at hab
        by_cases hxz : x < z
        · simp [hxz]
        · by_cases hzx : z < x
          · simp [hxz, hzx] at hbc
          · have hxz' : x = z := le_antisymm (not_lt.mp hzx) (not_lt.mp hxz)
            subst hxz'
            simp only [lt_irrefl, if_false] at hbc ⊢
            exact lexLtb_trans xs ys zs hab hbc

/-- `lexLtb` is asymmetric. -/
theorem lexLtb_asymm {a b : List Char} (h : lexLtb a b = true) :
    lexLtb b a = false := by
  cases hh : lexLtb b a
  · rfl
  · have := lexLtb_trans a b a h hh
    rw [lexLtb_irrefl] at this
    cases this

/-- `lexLtb` is total up to equality. -/
theorem lexLtb_total : ∀ a b : List Char,
    lexLtb a b = true ∨ lexLtb b a = true ∨ a = b
  | [], [] => Or.inr (Or.inr rfl)
  | [], _ :: _ => Or.inl rfl
  | _ :: _, [] => Or.inr (Or.inl rfl)
  | x :: xs, y :: ys => by
    rcases lt_trichotomy x y with h | h | h
    · left; simp [lexLtb, h]
    · subst h
      rcases lexLtb_total xs ys with h2 | h2 | h2
      · left; simp [lexLtb, lt_irrefl, h2]
      · right; left; simp [lexLtb, lt_irrefl, h2]
      · right; right; rw [h2]
    · right; left; simp [lexLtb, h, lt_asymm h]

instance : IsTotal (String × Nat) qle := by
  constructor
  intro a b
  rcases Nat.lt_trichotomy a.2 b.2 with h | h | h
  · exact Or.inl (Or.inl h)
  · cases hba : strLtb b.1 a.1
    · exact Or.inl (Or.inr ⟨h, by simp [strLeb, hba]⟩)
    · refine Or.inr (Or.inr ⟨h.symm, ?_⟩)
      simp only [strLeb, strLtb] at hba ⊢
      rw [lexLtb_asymm hba]
      rfl
  · exact Or.inr (Or.inl h)

instance : IsTrans (String × Nat) qle := by
  constructor
  intro a b c hab hbc
  rcases hab with h1 | ⟨e1, l1⟩
  · rcases hbc with h2 | ⟨e2, _⟩
    · exact Or.inl (h1.trans h2)
    · exact Or.inl (e2 ▸ h1)
  · rcases hbc with h2 | ⟨e2, l2⟩
    · exact Or.inl (e1 ▸ h2)
    · refine Or.inr ⟨e1.trans e2, ?_⟩
      simp only [strLeb, strLtb, Bool.not_eq_true', Bool.not_eq_false] at l1 l2 ⊢
      by_cases hca : lexLtb c.1.data a.1.data = true
      · rcases lexLtb_total c.1.data b.1.data with h | h | h
        · rw [h] at l2; cases l2
        · have := lexLtb_trans _ _ _ h hca
          rw [this] at l1; cases l1
        · rw [h] at hca
          rw [hca] at l1; cases l1
      · simp only [Bool.not_eq_true] at hca
        exact hca

end LexOrderLemmas

/-- The in-place `Array.sort` in `processQueue`. -/
def sortQueue (l : List (String × Nat)) : List (String × Nat) :=
  List.insertionSort qle l

/-- `MutualExclusion.processQueue`: sort the deferred queue by
`(timestamp, nodeId)` ascending and send each entry a RESPONSE. -/
def processQueue (s : MEState) : MEState × List Sent :=
  let sorted := sortQueue s.queue
  ({ s with queue := [] }, sorted.map (fun e => sendResponse s e.1))

/-- `MutualExclusion.requestResource`. -/
def requestResource (s : MEState) : MEState × List Sent :=
  if s.isResourceWaiting = true then (s, [])
  else if s.isResourceExisting = true then (s, [])
  else
    let s1 := { s with
      timestamp := s.timestamp + 1,
      isResourceWaiting := true,
      receivedMessages := [] }
    if s1.knownNodes.length = 0 then (giveResource s1, [])
    else
      (verifyResponse s1, [⟨none, ⟨CMType.REQUEST, s1.nodeId, s1.timestamp⟩⟩])

/-- `MutualExclusion.releaseResource`. -/
def releaseResource (s : MEState) : MEState × List Sent :=
  if s.isResourceExisting = false then (s, [])
  else
    let s1 := { s with isResourceExisting := false, isResourceWaiting := false }
    let rel : Sent := ⟨none, ⟨CMType.RELEASE, s1.nodeId, s1.timestamp⟩⟩
    let r := processQueue s1
    (r.1, rel :: r.2)

/-- `MutualExclusion.processRequest`.  JS `&&` binds tighter than `||`,
so the guard is `isResourceExisting ∨ (isResourceWaiting ∧ priority)`. -/
def processRequest (s : MEState) (m : ControlMessage) : MEState × List Sent :=
  if s.isResourceExisting = true ∨
      (s.isResourceWaiting = true ∧
        (s.timestamp < m.timestamp ∨
          (s.timestamp = m.timestamp ∧ strLtb s.nodeId m.originNode = true)))
  then ({ s with queue := s.queue ++ [(m.originNode, m.timestamp)] }, [])
  else (s, [sendResponse s m.originNode])

/-- `MutualExclusion.processResponse`. -/
def processResponse (s : MEState) (m : ControlMessage) : MEState × List Sent :=
  if s.isResourceWaiting = false then (s, [])
  else
    let s1 := { s with receivedMessages := setAdd s.receivedMessages m.originNode }
    (verifyResponse s1, [])

/-- `MutualExclusion.processRelease`: unconditionally drains the queue. -/
def processRelease (s : MEState) (_m : ControlMessage) : MEState × List Sent :=
  processQueue s

/-- `MutualExclusion.processMessage`: records the origin into
`knownNodes`, then dispatches by type. -/
def processMessage (s : MEState) (m : ControlMessage) : MEState × List Sent :=
  let s1 := { s with knownNodes := setAdd s.knownNodes m.originNode }
  match m.type with
  | CMType.REQUEST => processRequest s1 m
  | CMType.RESPONSE => processResponse s1 m
  | CMType.RELEASE => processRelease s1 m

/-- `MutualExclusion.addKnownNode`. -/
def addKnownNode (s : MEState) (n : String) : MEState :=
  if n ≠ s.nodeId then { s with knownNodes := setAdd s.knownNodes n } else s

/-! ### Group transport (`multicast.ts`, `MulticastCommunicator`) -/

/-- A deserialized datagram payload: either a chat `Message` or a
`ControlMessage` (`msg: Message | ControlMessage`). -/
inductive Payload
  | chat (m : Message)
  | control (c : ControlMessage)
deriving DecidableEq, Repr

/-- The self-suppression test of the socket `message` handler:
`(data as Message).origin === this.nodeId ||
 (data as ControlMessage).originNode === this.nodeId`.
Accessing the field the payload lacks yields `undefined`, which never
equals the (string) node id, so exactly the present field is compared. -/
def payloadOrigin : Payload → String
  | .chat m => m.origin
  | .control c => c.originNode

/-- The socket `message` handler of `setupSocketEvents`: `JSON.parse`
inside `try/catch` (modelled by the `decode` function returning
`Option`), self-suppression, then a single `messageCallback` dispatch.
The result lists the payloads handed to the registered callback. -/
def handleDatagram (decode : String → Option Payload) (nodeId raw : String) :
    List Payload :=
  match decode raw with
  | none => []
  | some p => if payloadOrigin p = nodeId then [] else [p]

/-! ### Reconciler (`reconciler.ts`, `Reconciler`) and
replica stores (`replication.ts`, `Replicator`).

A replica directory is a list of `Message`s (one `.json` file per
message id); `fs.writeFile` of `{id}.json` overwrites the record with
that id or creates it. -/

/-- The ids present in a replica (`messages.map(m => m.id)`). -/
def idsOf (r : List Message) : List String := r.map Message.id

/-- `Map.get` keyed by message id. -/
def lookupId : List Message → String → Option Message
  | [], _ => none
  | x :: xs, i => if x.id = i then some x else lookupId xs i

/-- `Map.set` on an existing key: replace in place, keep order. -/
def replaceId : List Message → Message → List Message
  | [], _ => []
  | x :: xs, m => if x.id = m.id then m :: xs else x :: replaceId xs m

/-- One step of building `uniqueMessages` in `Reconciler.reconcile`:
`if (!uniqueMessages.has(id) || existing.timestamp < m.timestamp) set(id, m)`. -/
def uniqueStep (acc : List Message) (m : Message) : List Message :=
  match lookupId acc m.id with
  | none => acc ++ [m]
  | some old => if old.timestamp < m.timestamp then replaceId acc m else acc

/-- `uniqueMessages`: fold over every message of every replica in
iteration order, newest-timestamp-wins per id. -/
def uniqueMessages (rs : List (List Message)) : List Message :=
  rs.flatten.foldl uniqueStep []

/-- The `missingMessages` of one replica:
`Array.from(uniqueMessages.values()).filter(m => !actualReplicaIds.has(m.id))`. -/
def missingFor (u r : List Message) : List Message :=
  u.filter (fun m => decide (¬ m.id ∈ idsOf r))

/-- All `saveMessage` calls issued by one `reconcile` pass, in order. -/
def reconcileWrites (rs : List (List Message)) : List Message :=
  (rs.map (missingFor (uniqueMessages rs))).flatten

/-- Effect of one scheduled replica write (`fs.writeFile` of
`{message.id}.json`): create or overwrite the record with that id. -/
def writeMessage (r : List Message) (m : Message) : List Message :=
  match lookupId r m.id with
  | some _ => replaceId r m
  | none => r ++ [m]

/-- All pending writes applied to one replica.  `Replicator.saveMessage`
schedules each write after an independent random delay; the id-set of
the final store does not depend on the completion order, so the writes
are applied in issue order. -/
def runWrites (r : List Message) (ws : List Message) : List Message :=
  ws.foldl writeMessage r

/-- One `Reconciler.reconcile` pass, after every scheduled
`saveMessage` write has completed: `saveMessage` writes the message to
every replica, so each replica receives the whole write list. -/
def reconcile (rs : List (List Message)) : List (List Message) :=
  rs.map (fun r => runWrites r (reconcileWrites rs))

/-! ### Checkpoint manager (`reconciler.ts`, `CheckpointManager`).

The SQLite `checkpoints` table is a list of rows; `id TEXT PRIMARY KEY`
makes an `INSERT` with a duplicate id throw, which `createCheckpoint`
catches, returning `''`.  `JSON.stringify`/`JSON.parse` of the message
array is modelled by a concrete invertible serializer over the
character list of the stored `data` string. -/

/-- Unary-length-prefixed field: `n` times `'1'`, a `'0'` marker, then
the field's characters.  Models one JSON string field. -/
def encField (s : List Char) : List Char :=
  List.replicate s.length '1' ++ '0' :: s

/-- Unary natural number: `n` times `'1'` then `'0'`. -/
def encNat (n : Nat) : List Char :=
  List.replicate n '1' ++ ['0']

/-- Serialization of one `Message` record. -/
def encMessage (m : Message) : List Char :=
  encField m.id.data ++ (encField m.origin.data ++
    (encField m.content.data ++ encNat m.timestamp))

/-- Serialization of the records of a message array. -/
def encMessagesAux : List Message → List Char
  | [] => []
  | m :: ms => encMessage m ++ encMessagesAux ms

/-- `JSON.stringify(messages)` model: element count then the records. -/
def encMessages (l : List Message) : List Char :=
  encNat l.length ++ encMessagesAux l

/-- Count leading `'1'` markers. -/
def takeOnes : List Char → Nat × List Char
  | [] => (0, [])
  | c :: cs =>
    if c = '1' then
      let p := takeOnes cs
      (p.1 + 1, p.2)
    else (0, c :: cs)

/-- Parse a unary natural number. -/
def decNat (l : List Char) : Option (Nat × List Char) :=
  match takeOnes l with
  | (n, '0' :: rest) => some (n, rest)
  | _ => none

/-- Parse one length-prefixed field. -/
def decField (l : List Char) : Option (List Char × List Char) :=
  match decNat l with
  | some (n, rest) =>
    if n ≤ rest.length then some (rest.take n, rest.drop n) else none
  | none => none

/-- Parse one `Message` record. -/
def decMessage (l : List Char) : Option (Message × List Char) :=
  match decField l with
  | none => none
  | some (i, l1) =>
    match decField l1 with
    | none => none
    | some (o, l2) =>
      match decField l2 with
      | none => none
      | some (c, l3) =>
        match decNat l3 with
        | none => none
        | some (t, l4) => some (⟨⟨i⟩, ⟨o⟩, ⟨c⟩, t⟩, l4)

/-- Parse exactly `n` records. -/
def decMessagesAux : Nat → List Char → Option (List Message × List Char)
  | 0, l => some ([], l)
  | n + 1, l =>
    match decMessage l with
    | none => none
    | some (m, rest) =>
      match decMessagesAux n rest with
      | none => none
      | some (ms, r2) => some (m :: ms, r2)

/-- `JSON.parse(data)` model: the whole string must be consumed. -/
def decMessages (l : List Char) : Option (List Message) :=
  match decNat l with
  | none => none
  | some (n, rest) =>
    match decMessagesAux n rest with
    | some (ms, []) => some ms
    | _ => none

/-- One row of the `checkpoints` table (`data` held as its character
list). -/
structure CheckpointRow where
  id : String
  node_id : String
  timestamp : Nat
  data : List Char
deriving DecidableEq, Repr

/-- The in-memory `Checkpoint` record rebuilt by `getLastCheckpoint`. -/
structure Checkpoint where
  id : String
  messages : List Message
  timestamp : Nat
deriving DecidableEq, Repr

/-- `` `${this.nodId}-${timestamp}` ``. -/
def checkpointId (nodeId : String) (ts : Nat) : String :=
  nodeId ++ "-" ++ toString ts

/-- `CheckpointManager.createCheckpoint` at clock value `now`
(`Date.now()`): insert a fresh row, or — when the `INSERT` throws on the
`id` primary key — leave the table unchanged and return the `''`
sentinel. -/
def createCheckpoint (store : List CheckpointRow) (nodeId : String)
    (now : Nat) (messages : List Message) : List CheckpointRow × String :=
  let cid := checkpointId nodeId now
  if store.any (fun r => decide (r.id = cid)) then (store, "")
  else (store ++ [⟨cid, nodeId, now, encMessages messages⟩], cid)

/-- `SELECT ... ORDER BY timestamp DESC LIMIT 1` over a row list:
the row with the greatest timestamp. -/
def maxRow : List CheckpointRow → Option CheckpointRow
  | [] => none
  | x :: xs =>
    match maxRow xs with
    | none => some x
    | some b => if b.timestamp < x.timestamp then some x else some b

/-- The `WHERE node_id = ?` filter. -/
def rowsFor (store : List CheckpointRow) (nodeId : String) : List CheckpointRow :=
  store.filter (fun r => decide (r.node_id = nodeId))

/-- `CheckpointManager.getLastCheckpoint`: newest row of this node, its
`data` column parsed back into messages (a parse failure would throw
and be caught, yielding `null`). -/
def getLastCheckpoint (store : List CheckpointRow) (nodeId : String) :
    Option Checkpoint :=
  match maxRow (rowsFor store nodeId) with
  | none => none
  | some row =>
    match decMessages row.data with
    | none => none
    | some msgs => some ⟨row.id, msgs, row.timestamp⟩

/-- `CheckpointManager.recoverState`. -/
def recoverState (store : List CheckpointRow) (nodeId : String) : List Message :=
  match getLastCheckpoint store nodeId with
  | none => []
  | some c => c.messages

/-- A constant decoder used to exercise `handleDatagram` on concrete
inputs. -/
def decodeConst (p : Payload) : String → Option Payload := fun _ => some p

/-- A complete three-node run of the coordinator in which every
broadcast control message is delivered to both non-origin nodes (no
message loss).  Nodes `A`, `B`, `C` all know each other.  `A` requests
and is granted; `B` and `C` then request with equal timestamps; `A`
defers both; `C` (losing the tie) acks `B`.  When `A` releases, its
queue-drain RESPONSEs are broadcast without a destination field, so
they reach `B` and `C` alike; and `B`, on seeing `A`'s RELEASE, drains
its own deferred queue while still holding, acking `C`.  Returns the
final states of `A`, `B`, `C` and every `Sent` emitted, in order. -/
def c1Trace : (MEState × MEState × MEState) × List Sent :=
  let a0 := addKnownNode (addKnownNode (MEState.init "A") "B") "C"
  let b0 := addKnownNode (addKnownNode (MEState.init "B") "A") "C"
  let c0 := addKnownNode (addKnownNode (MEState.init "C") "A") "B"
  let reqA : ControlMessage := ⟨CMType.REQUEST, "A", 1⟩
  let respB0 : ControlMessage := ⟨CMType.RESPONSE, "B", 0⟩
  let respC0 : ControlMessage := ⟨CMType.RESPONSE, "C", 0⟩
  let reqB : ControlMessage := ⟨CMType.REQUEST, "B", 1⟩
  let reqC : ControlMessage := ⟨CMType.REQUEST, "C", 1⟩
  let respC1 : ControlMessage := ⟨CMType.RESPONSE, "C", 1⟩
  let relA : ControlMessage := ⟨CMType.RELEASE, "A", 1⟩
  let respA1 : ControlMessage := ⟨CMType.RESPONSE, "A", 1⟩
  let respB1 : ControlMessage := ⟨CMType.RESPONSE, "B", 1⟩
  -- A requests
  let (a1, oA1) := requestResource a0
  -- idle B and C answer A's request with broadcast RESPONSEs
  let (b1, oB1) := processMessage b0 reqA
  let (c1, oC1) := processMessage c0 reqA
  -- C ignores B's broadcast answer (not waiting)
  let (c2, oC2) := processMessage c1 respB0
  -- B ignores C's broadcast answer; A collects both acks: A holds
  let (b2, oB2) := processMessage b1 respC0
  let (a2, oA2) := processMessage a1 respB0
  let (a3, oA3) := processMessage a2 respC0
  -- B and C request with equal timestamps
  let (b3, oB3) := requestResource b2
  let (c3, oC3) := requestResource c2
  -- A (holding) defers both requests
  let (a4, oA4) := processMessage a3 reqB
  let (a5, oA5) := processMessage a4 reqC
  -- C loses the tie against B and answers B's request
  let (c4, oC4) := processMessage c3 reqB
  -- B wins the tie against C and defers C
  let (b4, oB4) := processMessage b3 reqC
  -- A ignores C's answer (not waiting); B records it as an ack
  let (a6, oA6) := processMessage a5 respC1
  let (b5, oB5) := processMessage b4 respC1
  -- A releases: RELEASE plus two queue-drain RESPONSE broadcasts
  let (a7, oA7) := releaseResource a6
  -- B receives a drain RESPONSE and is granted: B holds
  let (b6, oB6) := processMessage b5 respA1
  -- C receives the same broadcast copy (first ack)
  let (c5, oC5) := processMessage c4 respA1
  -- B, on RELEASE and while holding, drains its own queue, acking C
  let (b7, oB7) := processMessage b6 relA
  -- C processes RELEASE (empty drain) and the second drain copy
  let (c6, oC6) := processMessage c5 relA
  let (c7, oC7) := processMessage c6 respA1
  -- B ignores the second copy; A ignores B's drain RESPONSE
  let (b8, oB8) := processMessage b7 respA1
  let (a8, oA8) := processMessage a7 respB1
  -- C records B's drain RESPONSE as its second ack: C holds too
  let (c8, oC8) := processMessage c7 respB1
  ((a8, b8, c8),
    oA1 ++ oB1 ++ oC1 ++ oC2 ++ oB2 ++ oA2 ++ oA3 ++ oB3 ++ oC3 ++ oA4 ++
    oA5 ++ oC4 ++ oB4 ++ oA6 ++ oB5 ++ oA7 ++ oB6 ++ oC5 ++ oB7 ++ oC6 ++
    oC7 ++ oB8 ++ oA8 ++ oC8)

/-! ## Theorems -/

/-- C4: `requestResource()` while already waiting or already holding,
and `releaseResource()` while not holding, leave the whole coordinator
state unchanged and send no message (the code only logs a warning and
returns). -/
theorem c4_invalid_calls_are_noops (s : MEState) :
    ((s.isResourceWaiting = true ∨ s.isResourceExisting = true) →
      requestResource s = (s, []))
  ∧ (s.isResourceExisting = false → releaseResource s = (s, [])) := by
  constructor
  · intro h
    unfold requestResource
    split
    · rfl
    · split
      · rfl
      · rename_i hw he
        cases h with
        | inl h => exact absurd h hw
        | inr h => exact absurd h he
  · intro h
    unfold releaseResource
    simp [h]

/-- Witness for C4 at concrete states. -/
theorem c4_invalid_calls_are_noops_witness :
    requestResource ⟨"A", true, false, 2, [], [], []⟩
      = (⟨"A", true, false, 2, [], [], []⟩, [])
  ∧ releaseResource ⟨"A", false, false, 2, [], [], []⟩
      = (⟨"A", false, false, 2, [], [], []⟩, []) :=
  ⟨(c4_invalid_calls_are_noops _).1 (Or.inl rfl),
   (c4_invalid_calls_are_noops _).2 rfl⟩

/-- C2 counterexample: a node that HOLDS the resource with local
timestamp 5 receives a REQUEST with timestamp 3 from node `Z`.  The
local request does not have priority (neither `5 < 3` nor a tie), so
the claim says the coordinator replies immediately; the code instead
enqueues `Z` and sends nothing, because holding short-circuits the
priority rule (`isResourceExisting || isResourceWaiting && priority`). -/
theorem c2_counterexample :
    ¬ ((5 : Nat) < 3 ∨ ((5 : Nat) = 3 ∧ strLtb "B" "Z" = true))
  ∧ (processMessage ⟨"B", false, true, 5, [], [], ["A"]⟩
      ⟨CMType.REQUEST, "Z", 3⟩).1.queue = [("Z", 3)]
  ∧ (processMessage ⟨"B", false, true, 5, [], [], ["A"]⟩
      ⟨CMType.REQUEST, "Z", 3⟩).2 = [] := by
  decide

/-- C2 amended: on a REQUEST, a node that is HOLDING always enqueues
the requester, regardless of timestamps; the Lamport priority rule
(enqueue iff local `timestamp < remote`, ties broken by smaller node
id) applies only when the node is waiting and not holding; a node that
is neither holding nor waiting replies immediately with a RESPONSE. -/
theorem c2_amended_request_handling (s : MEState) (m : ControlMessage)
    (ht : m.type = CMType.REQUEST) :
    (s.isResourceExisting = true →
      processMessage s m =
        ({ s with knownNodes := setAdd s.knownNodes m.originNode,
                  queue := s.queue ++ [(m.originNode, m.timestamp)] }, []))
  ∧ (s.isResourceExisting = false → s.isResourceWaiting = true →
      (s.timestamp < m.timestamp ∨
        (s.timestamp = m.timestamp ∧ strLtb s.nodeId m.originNode = true)) →
      processMessage s m =
        ({ s with knownNodes := setAdd s.knownNodes m.originNode,
                  queue := s.queue ++ [(m.originNode, m.timestamp)] }, []))
  ∧ (s.isResourceExisting = false → s.isResourceWaiting = true →
      ¬ (s.timestamp < m.timestamp ∨
        (s.timestamp = m.timestamp ∧ strLtb s.nodeId m.originNode = true)) →
      processMessage s m =
        ({ s with knownNodes := setAdd s.knownNodes m.originNode },
         [⟨some m.originNode, ⟨CMType.RESPONSE, s.nodeId, s.timestamp⟩⟩]))
  ∧ (s.isResourceExisting = false → s.isResourceWaiting = false →
      processMessage s m =
        ({ s with knownNodes := setAdd s.knownNodes m.originNode },
         [⟨some m.originNode, ⟨CMType.RESPONSE, s.nodeId, s.timestamp⟩⟩])) := by
  refine ⟨?_, ?_, ?_, ?_⟩
  · intro he
    simp only [processMessage, ht, processRequest, sendResponse]
    rw [if_pos (Or.inl he)]
  · intro he hw hp
    simp only [processMessage, ht, processRequest, sendResponse]
    rw [if_pos (Or.inr ⟨hw, hp⟩)]
  · intro he hw hp
    simp only [processMessage, ht, processRequest, sendResponse]
    rw [if_neg]
    intro hc
    cases hc with
    | inl hc => exact absurd hc (by simp [he])
    | inr hc => exact hp hc.2
  · intro he hw
    simp only [processMessage, ht, processRequest, sendResponse]
    rw [if_neg]
    intro hc
    cases hc with
    | inl hc => exact absurd hc (by simp [he])
    | inr hc => exact absurd hc.1 (by simp [hw])

/-- Witness for C2 amended: the three observable behaviours at
concrete inputs. -/
theorem c2_amended_request_handling_witness :
    processMessage ⟨"B", false, true, 5, [], [], []⟩ ⟨CMType.REQUEST, "Z", 3⟩
      = (⟨"B", false, true, 5, [("Z", 3)], [], ["Z"]⟩, [])
  ∧ processMessage ⟨"B", true, false, 5, [], [], []⟩ ⟨CMType.REQUEST, "Z", 3⟩
      = (⟨"B", true, false, 5, [], [], ["Z"]⟩,
         [⟨some "Z", ⟨CMType.RESPONSE, "B", 5⟩⟩])
  ∧ processMessage ⟨"B", false, false, 5, [], [], []⟩ ⟨CMType.REQUEST, "Z", 3⟩
      = (⟨"B", false, false, 5, [], [], ["Z"]⟩,
         [⟨some "Z", ⟨CMType.RESPONSE, "B", 5⟩⟩]) := by
  refine ⟨?_, ?_, ?_⟩
  · exact (c2_amended_request_handling _ _ rfl).1 rfl
  · exact (c2_amended_request_handling _ _ rfl).2.2.1 rfl rfl (by decide)
  · exact (c2_amended_request_handling _ _ rfl).2.2.2 rfl rfl

/-- C3 counterexample: node `A` issues its request while knowing only
`B`; a REQUEST from the later-learned node `C` then arrives, followed
by `B`'s acknowledgement.  Every node known at request time has acked,
yet the code does not grant the resource — the grant condition compares
against the CURRENT `knownNodes` size, which `C` has raised to 2. -/
theorem c3_counterexample :
    (requestResource (addKnownNode (MEState.init "A") "B")).1.knownNodes = ["B"]
  ∧ (processMessage
        (processMessage (requestResource (addKnownNode (MEState.init "A") "B")).1
          ⟨CMType.REQUEST, "C", 5⟩).1
        ⟨CMType.RESPONSE, "B", 1⟩).1.receivedMessages = ["B"]
  ∧ (processMessage
        (processMessage (requestResource (addKnownNode (MEState.init "A") "B")).1
          ⟨CMType.REQUEST, "C", 5⟩).1
        ⟨CMType.RESPONSE, "B", 1⟩).1.isResourceExisting = false
  ∧ (processMessage
        (processMessage (requestResource (addKnownNode (MEState.init "A") "B")).1
          ⟨CMType.REQUEST, "C", 5⟩).1
        ⟨CMType.RESPONSE, "B", 1⟩).1.isResourceWaiting = true := by
  decide

/-- C3 amended: a waiting node processing a RESPONSE is granted the
resource exactly when its acknowledgement count reaches the size of the
CURRENT `knownNodes` set (after recording the responder) — i.e. every
currently-known node must be accounted for, so nodes learned after the
request was issued raise the requirement instead of being exempt. -/
theorem c3_amended_grant_condition (s : MEState) (o : String) (t : Nat)
    (hw : s.isResourceWaiting = true) (he : s.isResourceExisting = false) :
    (processMessage s ⟨CMType.RESPONSE, o, t⟩).1.isResourceExisting = true
      ↔ (setAdd s.receivedMessages o).length ≥ (setAdd s.knownNodes o).length := by
  have h1 : processMessage s ⟨CMType.RESPONSE, o, t⟩
      = (verifyResponse
          { s with receivedMessages := setAdd s.receivedMessages o,
                   knownNodes := setAdd s.knownNodes o }, []) := by
    simp [processMessage, processResponse, hw]
  rw [h1]
  unfold verifyResponse
  split
  · rename_i hc
    exact iff_of_true rfl hc
  · rename_i hc
    refine iff_of_false ?_ hc
    show ¬ s.isResourceExisting = true
    rw [he]
    simp

/-- Witness for C3 amended: with one known node, its own ack grants. -/
theorem c3_amended_grant_condition_witness :
    (processMessage ⟨"A", true, false, 1, [], [], ["B"]⟩
        ⟨CMType.RESPONSE, "B", 1⟩).1.isResourceExisting = true
      ↔ (setAdd [] "B").length ≥ (setAdd ["B"] "B").length :=
  c3_amended_grant_condition ⟨"A", true, false, 1, [], [], ["B"]⟩ "B" 1 rfl rfl

/-- C9: a RESPONSE built by `sendResponse` carries only
`{type, originNode, timestamp}` of the sender — the wire message is
independent of the `destination` argument (which only reaches the log),
so it is broadcast to the whole group; and any node that is currently
waiting and processes such a RESPONSE adds its `originNode` to its own
acknowledgement set, regardless of which request it answered. -/
theorem c9_response_broadcast (s : MEState) (d d' o : String) (t : Nat)
    (hw : s.isResourceWaiting = true) :
    (sendResponse s d).msg = ⟨CMType.RESPONSE, s.nodeId, s.timestamp⟩
  ∧ sendResponse s d = ⟨some d, (sendResponse s d').msg⟩
  ∧ (processMessage s ⟨CMType.RESPONSE, o, t⟩).1.receivedMessages
      = setAdd s.receivedMessages o := by
  refine ⟨rfl, rfl, ?_⟩
  have h1 : processMessage s ⟨CMType.RESPONSE, o, t⟩
      = (verifyResponse
          { s with receivedMessages := setAdd s.receivedMessages o,
                   knownNodes := setAdd s.knownNodes o }, []) := by
    simp [processMessage, processResponse, hw]
  rw [h1]
  unfold verifyResponse
  split
  · rfl
  · rfl

/-- Witness for C9 at a concrete waiting state. -/
theorem c9_response_broadcast_witness :
    (sendResponse ⟨"A", true, false, 1, [], [], ["B"]⟩ "B").msg
        = ⟨CMType.RESPONSE, "A", 1⟩
  ∧ sendResponse ⟨"A", true, false, 1, [], [], ["B"]⟩ "B"
        = ⟨some "B", (sendResponse ⟨"A", true, false, 1, [], [], ["B"]⟩ "C").msg⟩
  ∧ (processMessage ⟨"A", true, false, 1, [], [], ["B"]⟩
        ⟨CMType.RESPONSE, "Q", 7⟩).1.receivedMessages = setAdd [] "Q" :=
  c9_response_broadcast ⟨"A", true, false, 1, [], [], ["B"]⟩ "B" "C" "Q" 7 rfl

/-- C1: mutual exclusion is violated.  In the fully-delivered three-node
run `c1Trace` (every broadcast reaches both non-origin nodes, so there
is no message loss), the messages actually emitted are exactly the ten
listed, every one of them is delivered in the trace, and at the end `B`
and `C` both have `isResourceExisting = true` simultaneously while `A`
has released.  The slip: `sendResponse` never puts its `destination` on
the wire, so every waiting node counts every RESPONSE as an ack for its
own request, and `processRelease` drains the deferred queue even while
the local node still holds the resource. -/
theorem c1_two_simultaneous_holders :
    c1Trace.2 =
      [⟨none, ⟨CMType.REQUEST, "A", 1⟩⟩,
       ⟨some "A", ⟨CMType.RESPONSE, "B", 0⟩⟩,
       ⟨some "A", ⟨CMType.RESPONSE, "C", 0⟩⟩,
       ⟨none, ⟨CMType.REQUEST, "B", 1⟩⟩,
       ⟨none, ⟨CMType.REQUEST, "C", 1⟩⟩,
       ⟨some "B", ⟨CMType.RESPONSE, "C", 1⟩⟩,
       ⟨none, ⟨CMType.RELEASE, "A", 1⟩⟩,
       ⟨some "B", ⟨CMType.RESPONSE, "A", 1⟩⟩,
       ⟨some "C", ⟨CMType.RESPONSE, "A", 1⟩⟩,
       ⟨some "C", ⟨CMType.RESPONSE, "B", 1⟩⟩]
  ∧ c1Trace.1.1.isResourceExisting = false
  ∧ c1Trace.1.2.1.isResourceExisting = true
  ∧ c1Trace.1.2.2.isResourceExisting = true := by
  decide

/-- C5: `releaseResource()` while holding clears both flags, first
broadcasts a RELEASE, then sends one RESPONSE per deferred requester in
ascending `(timestamp, nodeId)` order (the emitted destination sequence
is a sorted permutation of the queue), and leaves the queue empty. -/
theorem c5_release_drains_queue (s : MEState) (h : s.isResourceExisting = true) :
    (releaseResource s).1.isResourceExisting = false
  ∧ (releaseResource s).1.isResourceWaiting = false
  ∧ (releaseResource s).1.queue = []
  ∧ (releaseResource s).2
      = ⟨none, ⟨CMType.RELEASE, s.nodeId, s.timestamp⟩⟩ ::
        (sortQueue s.queue).map
          (fun e => ⟨some e.1, ⟨CMType.RESPONSE, s.nodeId, s.timestamp⟩⟩)
  ∧ List.Perm (sortQueue s.queue) s.queue
  ∧ List.Sorted qle (sortQueue s.queue) := by
  have h1 : releaseResource s
      = ({ s with isResourceExisting := false, isResourceWaiting := false,
                  queue := [] },
         ⟨none, ⟨CMType.RELEASE, s.nodeId, s.timestamp⟩⟩ ::
           (sortQueue s.queue).map
             (fun e => ⟨some e.1, ⟨CMType.RESPONSE, s.nodeId, s.timestamp⟩⟩)) := by
    simp [releaseResource, processQueue, h, sendResponse]
  rw [h1]
  refine ⟨rfl, rfl, rfl, rfl, ?_, ?_⟩
  · exact List.perm_insertionSort qle s.queue
  · exact List.sorted_insertionSort qle s.queue

/-- Witness for C5: releasing with a two-element unsorted queue. -/
theorem c5_release_drains_queue_witness :
    (releaseResource ⟨"A", false, true, 3, [("C", 2), ("B", 1)], [], []⟩).1.isResourceExisting = false
  ∧ (releaseResource ⟨"A", false, true, 3, [("C", 2), ("B", 1)], [], []⟩).1.isResourceWaiting = false
  ∧ (releaseResource ⟨"A", false, true, 3, [("C", 2), ("B", 1)], [], []⟩).1.queue = []
  ∧ (releaseResource ⟨"A", false, true, 3, [("C", 2), ("B", 1)], [], []⟩).2
      = ⟨none, ⟨CMType.RELEASE, "A", 3⟩⟩ ::
        (sortQueue [("C", 2), ("B", 1)]).map
          (fun e => ⟨some e.1, ⟨CMType.RESPONSE, "A", 3⟩⟩)
  ∧ List.Perm (sortQueue [("C", 2), ("B", 1)]) [("C", 2), ("B", 1)]
  ∧ List.Sorted qle (sortQueue [("C", 2), ("B", 1)]) :=
  c5_release_drains_queue ⟨"A", false, true, 3, [("C", 2), ("B", 1)], [], []⟩ rfl

/-- C6: for every inbound datagram, a payload that fails to deserialize
is discarded (the handler is a total function, mirroring the
`try/catch`: no dispatch, no crash); a payload whose origin (or
`originNode`) equals the local node id is discarded without invoking
the handler; any other payload is dispatched exactly once to the single
registered callback. -/
theorem c6_inbound_dispatch (decode : String → Option Payload)
    (nodeId raw : String) :
    (decode raw = none → handleDatagram decode nodeId raw = [])
  ∧ (∀ p, decode raw = some p → payloadOrigin p = nodeId →
      handleDatagram decode nodeId raw = [])
  ∧ (∀ p, decode raw = some p → payloadOrigin p ≠ nodeId →
      handleDatagram decode nodeId raw = [p]) := by
  refine ⟨?_, ?_, ?_⟩
  · intro h
    simp [handleDatagram, h]
  · intro p hp ho
    simp [handleDatagram, hp, ho]
  · intro p hp ho
    simp [handleDatagram, hp, ho]

/-- Witness for C6: a self-originated control payload is dropped, a
foreign one is dispatched once. -/
theorem c6_inbound_dispatch_witness :
    handleDatagram (decodeConst (Payload.control ⟨CMType.REQUEST, "A", 1⟩)) "A" "x" = []
  ∧ handleDatagram (decodeConst (Payload.control ⟨CMType.REQUEST, "A", 1⟩)) "B" "x"
      = [Payload.control ⟨CMType.REQUEST, "A", 1⟩] :=
  ⟨(c6_inbound_dispatch (decodeConst (Payload.control ⟨CMType.REQUEST, "A", 1⟩)) "A" "x").2.1
      _ rfl rfl,
   (c6_inbound_dispatch (decodeConst (Payload.control ⟨CMType.REQUEST, "A", 1⟩)) "B" "x").2.2
      _ rfl (by decide)⟩

section ReconcilerLemmas

/-- Replacing a record by one with the same id preserves the id list. -/
theorem idsOf_replaceId (l : List Message) (m : Message) :
    idsOf (replaceId l m) = idsOf l := by
  induction l with
  | nil => rfl
  | cons x xs ih =>
    unfold replaceId
    split
    · rename_i h
      simp [idsOf, h]
    · simp only [idsOf, List.map_cons] at ih ⊢
      rw [ih]

/-- `lookupId` fails exactly when the id is absent. -/
theorem lookupId_none_iff (l : List Message) (i : String) :
    lookupId l i = none ↔ i ∉ idsOf l := by
  induction l with
  | nil => simp [lookupId, idsOf]
  | cons x xs ih =>
    unfold lookupId
    split
    · rename_i h
      simp [idsOf, h]
    · rename_i h
      simp only [idsOf, List.map_cons, List.mem_cons, ih]
      constructor
      · intro hn hc
        cases hc with
        | inl hc => exact h hc.symm
        | inr hc => exact hn hc
      · intro hn hc
        exact hn (Or.inr hc)

/-- One `uniqueMessages` step adds exactly the new message's id. -/
theorem mem_idsOf_uniqueStep (acc : List Message) (m : Message) (x : String) :
    x ∈ idsOf (uniqueStep acc m) ↔ x ∈ idsOf acc ∨ x = m.id := by
  unfold uniqueStep
  split
  · simp [idsOf, List.mem_append]
  · rename_i old heq
    have hmem : m.id ∈ idsOf acc := by
      by_contra hc
      rw [← lookupId_none_iff] at hc
      rw [heq] at hc
      cases hc
    split
    · rw [idsOf_replaceId]
      constructor
      · exact Or.inl
      · rintro (h | rfl)
        · exact h
        · exact hmem
    · constructor
      · exact Or.inl
      · rintro (h | rfl)
        · exact h
        · exact hmem

/-- Folding `uniqueStep` collects exactly the ids of the input. -/
theorem mem_idsOf_foldl_uniqueStep (l : List Message) :
    ∀ (acc : List Message) (x : String),
      x ∈ idsOf (l.foldl uniqueStep acc) ↔ x ∈ idsOf acc ∨ x ∈ idsOf l := by
  induction l with
  | nil => simp [idsOf]
  | cons m ms ih =>
    intro acc x
    rw [List.foldl_cons, ih, mem_idsOf_uniqueStep]
    simp only [idsOf, List.map_cons, List.mem_cons]
    tauto

/-- The merged view holds an id iff some replica holds it. -/
theorem mem_idsOf_uniqueMessages (rs : List (List Message)) (x : String) :
    x ∈ idsOf (uniqueMessages rs) ↔ ∃ r ∈ rs, x ∈ idsOf r := by
  unfold uniqueMessages
  rw [mem_idsOf_foldl_uniqueStep]
  simp only [idsOf, List.mem_map, List.map_nil, List.not_mem_nil, false_or,
    List.mem_flatten]
  constructor
  · rintro ⟨m, ⟨r, hr, hm⟩, rfl⟩
    exact ⟨r, hr, m, hm, rfl⟩
  · rintro ⟨r, hr, m, hm, rfl⟩
    exact ⟨m, ⟨r, hr, hm⟩, rfl⟩

/-- A replica write adds exactly the written id. -/
theorem mem_idsOf_writeMessage (r : List Message) (m : Message) (x : String) :
    x ∈ idsOf (writeMessage r m) ↔ x ∈ idsOf r ∨ x = m.id := by
  unfold writeMessage
  split
  · rename_i old heq
    have hmem : m.id ∈ idsOf r := by
      by_contra hc
      rw [← lookupId_none_iff] at hc
      rw [heq] at hc
      cases hc
    rw [idsOf_replaceId]
    constructor
    · exact Or.inl
    · rintro (h | rfl)
      · exact h
      · exact hmem
  · simp [idsOf, List.mem_append]

/-- Running a write list adds exactly the written ids. -/
theorem mem_idsOf_runWrites (ws : List Message) :
    ∀ (r : List Message) (x : String),
      x ∈ idsOf (runWrites r ws) ↔ x ∈ idsOf r ∨ x ∈ idsOf ws := by
  induction ws with
  | nil => simp [runWrites, idsOf]
  | cons w ws ih =>
    intro r x
    unfold runWrites at ih ⊢
    rw [List.foldl_cons, ih, mem_idsOf_writeMessage]
    simp only [idsOf, List.map_cons, List.mem_cons]
    tauto

/-- The missing set of one replica: merged ids the replica lacks. -/
theorem mem_idsOf_missingFor (u r : List Message) (x : String) :
    x ∈ idsOf (missingFor u r) ↔ x ∈ idsOf u ∧ x ∉ idsOf r := by
  unfold missingFor
  simp only [idsOf, List.mem_map, List.mem_filter, decide_eq_true_eq]
  constructor
  · rintro ⟨m, ⟨hm, hnot⟩, rfl⟩
    exact ⟨⟨m, hm, rfl⟩, by simpa [idsOf] using hnot⟩
  · rintro ⟨⟨m, hm, rfl⟩, hnot⟩
    exact ⟨m, ⟨hm, by simpa [idsOf] using hnot⟩, rfl⟩

/-- The write list of a `reconcile` pass holds an id iff some replica
is missing it from the merged view. -/
theorem mem_idsOf_reconcileWrites (rs : List (List Message)) (x : String) :
    x ∈ idsOf (reconcileWrites rs)
      ↔ ∃ r ∈ rs, x ∈ idsOf (missingFor (uniqueMessages rs) r) := by
  unfold reconcileWrites
  simp only [idsOf, List.mem_map, List.mem_flatten]
  constructor
  · rintro ⟨m, ⟨l, hl, hm⟩, rfl⟩
    rcases hl with ⟨r, hr, rfl⟩
    exact ⟨r, hr, m, hm, rfl⟩
  · rintro ⟨r, hr, m, hm, rfl⟩
    exact ⟨m, ⟨missingFor (uniqueMessages rs) r, ⟨r, hr, rfl⟩, hm⟩, rfl⟩

end ReconcilerLemmas

/-- C7: after one `reconcile()` pass, once every scheduled replica
write has completed, each replica's set of message ids equals the union
of the ids present across all replicas before the pass. -/
theorem c7_reconcile_convergence (rs : List (List Message))
    (r : List Message) (hr : r ∈ reconcile rs) (x : String) :
    x ∈ idsOf r ↔ ∃ r0 ∈ rs, x ∈ idsOf r0 := by
  rcases List.mem_map.mp hr with ⟨r0, hr0, rfl⟩
  rw [mem_idsOf_runWrites]
  constructor
  · rintro (h | h)
    · exact ⟨r0, hr0, h⟩
    · rw [mem_idsOf_reconcileWrites] at h
      rcases h with ⟨r1, hr1, h⟩
      rw [mem_idsOf_missingFor] at h
      exact (mem_idsOf_uniqueMessages rs x).mp h.1
  · intro h
    by_cases h0 : x ∈ idsOf r0
    · exact Or.inl h0
    · refine Or.inr ?_
      rw [mem_idsOf_reconcileWrites]
      exact ⟨r0, hr0,
        (mem_idsOf_missingFor (uniqueMessages rs) r0 x).mpr
          ⟨(mem_idsOf_uniqueMessages rs x).mpr h, h0⟩⟩

/-- Witness for C7: the spec's own scenario `replica_1 = {m1}`,
`replica_2 = {}`, `replica_3 = {m1, m2}`. -/
theorem c7_reconcile_convergence_witness :
    "m2" ∈ idsOf [(⟨"m1", "A", "x", 1⟩ : Message), ⟨"m2", "B", "y", 2⟩]
      ↔ ∃ r0 ∈ [[(⟨"m1", "A", "x", 1⟩ : Message)], [],
                 [⟨"m1", "A", "x", 1⟩, ⟨"m2", "B", "y", 2⟩]],
          "m2" ∈ idsOf r0 :=
  c7_reconcile_convergence
    [[⟨"m1", "A", "x", 1⟩], [], [⟨"m1", "A", "x", 1⟩, ⟨"m2", "B", "y", 2⟩]]
    [⟨"m1", "A", "x", 1⟩, ⟨"m2", "B", "y", 2⟩] (by decide) "m2"

section CheckpointLemmas

/-- Leading-marker count of an encoded prefix. -/
theorem takeOnes_replicate (n : Nat) (s : List Char) :
    takeOnes (List.replicate n '1' ++ '0' :: s) = (n, '0' :: s) := by
  induction n with
  | zero => simp [takeOnes]
  | succ k ih => simp [List.replicate_succ, takeOnes, ih]

/-- Round trip for the unary number encoding. -/
theorem decNat_encNat (n : Nat) (rest : List Char) :
    decNat (encNat n ++ rest) = some (n, rest) := by
  have h : encNat n ++ rest = List.replicate n '1' ++ '0' :: rest := by
    simp [encNat]
  rw [h]
  unfold decNat
  rw [takeOnes_replicate]
  rfl

/-- Round trip for one length-prefixed field. -/
theorem decField_encField (s rest : List Char) :
    decField (encField s ++ rest) = some (s, rest) := by
  have h : encField s ++ rest = List.replicate s.length '1' ++ '0' :: (s ++ rest) := by
    simp [encField]
  rw [h]
  unfold decField decNat
  rw [takeOnes_replicate]
  simp

/-- Round trip for one serialized `Message` record. -/
theorem decMessage_encMessage (m : Message) (rest : List Char) :
    decMessage (encMessage m ++ rest) = some (m, rest) := by
  have h : encMessage m ++ rest
      = encField m.id.data ++ (encField m.origin.data ++
          (encField m.content.data ++ (encNat m.timestamp ++ rest))) := by
    simp [encMessage, List.append_assoc]
  rw [h]
  simp only [decMessage, decField_encField, decNat_encNat]

/-- Round trip for a fixed count of serialized records. -/
theorem decMessagesAux_enc : ∀ (l : List Message) (rest : List Char),
    decMessagesAux l.length (encMessagesAux l ++ rest) = some (l, rest)
  | [], _ => rfl
  | m :: ms, rest => by
    simp only [List.length_cons, encMessagesAux, List.append_assoc, decMessagesAux,
      decMessage_encMessage, decMessagesAux_enc ms rest]

/-- Round trip for the whole serialized message array: the model of
`JSON.parse(JSON.stringify(messages))` deep-equality. -/
theorem decMessages_encMessages (l : List Message) :
    decMessages (encMessages l) = some l := by
  have h2 : decMessagesAux l.length (encMessagesAux l) = some (l, []) := by
    have h := decMessagesAux_enc l []
    rwa [List.append_nil] at h
  unfold decMessages encMessages
  rw [decNat_encNat]
  simp [h2]

/-- `ORDER BY timestamp DESC LIMIT 1` returns a freshly appended row
that is newer than every existing one. -/
theorem maxRow_append_newest (l : List CheckpointRow) (r : CheckpointRow)
    (h : ∀ x ∈ l, x.timestamp < r.timestamp) :
    maxRow (l ++ [r]) = some r := by
  induction l with
  | nil => rfl
  | cons x xs ih =>
    have hx : x.timestamp < r.timestamp := h x (by simp)
    have hxs := ih (fun y hy => h y (by simp [hy]))
    show (match maxRow (xs ++ [r]) with
      | none => some x
      | some b => if b.timestamp < x.timestamp then some x else some b) = some r
    rw [hxs]
    show (if r.timestamp < x.timestamp then some x else some r) = some r
    rw [if_neg (by omega)]

end CheckpointLemmas

/-- C8: `createCheckpoint()` with snapshot `l` at clock value `now`,
followed by `recoverState()` with no intervening checkpoint, returns a
message sequence equal to `l`, round-tripping through serialization and
the durable row store — provided the insert does not collide on the id
primary key and `now` is newer than every earlier checkpoint of this
node (`Date.now()` monotonicity). -/
theorem c8_checkpoint_roundtrip (store : List CheckpointRow) (nodeId : String)
    (now : Nat) (l : List Message)
    (hid : ∀ r ∈ store, r.id ≠ checkpointId nodeId now)
    (hts : ∀ r ∈ store, r.node_id = nodeId → r.timestamp < now) :
    recoverState (createCheckpoint store nodeId now l).1 nodeId = l := by
  have hany : (store.any (fun r => decide (r.id = checkpointId nodeId now))) = false := by
    rw [List.any_eq_false]
    intro x hx
    simp [hid x hx]
  have h1 : (createCheckpoint store nodeId now l).1
      = store ++ [⟨checkpointId nodeId now, nodeId, now, encMessages l⟩] := by
    simp [createCheckpoint, hany]
  have h2 : rowsFor (store ++ [⟨checkpointId nodeId now, nodeId, now, encMessages l⟩]) nodeId
      = rowsFor store nodeId ++ [⟨checkpointId nodeId now, nodeId, now, encMessages l⟩] := by
    simp [rowsFor, List.filter_append]
  have hhyp : ∀ x ∈ rowsFor store nodeId, x.timestamp < now := by
    intro x hx
    rcases List.mem_filter.mp hx with ⟨hmem, hp⟩
    exact hts x hmem (by simpa using hp)
  have h3 : getLastCheckpoint (store ++
        [⟨checkpointId nodeId now, nodeId, now, encMessages l⟩]) nodeId
      = some ⟨checkpointId nodeId now, l, now⟩ := by
    unfold getLastCheckpoint
    rw [h2, maxRow_append_newest _ _ hhyp]
    simp [decMessages_encMessages]
  rw [h1]
  unfold recoverState
  rw [h3]

/-- Witness for C8: a two-message snapshot on an empty store. -/
theorem c8_checkpoint_roundtrip_witness :
    recoverState
      (createCheckpoint [] "n1" 5
        [⟨"m1", "n1", "hello", 1⟩, ⟨"m2", "n2", "world", 2⟩]).1 "n1"
      = [⟨"m1", "n1", "hello", 1⟩, ⟨"m2", "n2", "world", 2⟩] :=
  c8_checkpoint_roundtrip [] "n1" 5
    [⟨"m1", "n1", "hello", 1⟩, ⟨"m2", "n2", "world", 2⟩]
    (by intro r hr; cases hr) (by intro r hr; cases hr)

/-- C10: two `createCheckpoint()` calls that observe the same
`Date.now()` value: whatever the first call did, the second call's
insert collides with the `id` primary key, returns the empty-string
sentinel, and leaves the checkpoint store exactly as the first call
left it (no partial row). -/
theorem c10_duplicate_timestamp_checkpoint (store : List CheckpointRow)
    (nodeId : String) (now : Nat) (l1 l2 : List Message) :
    createCheckpoint (createCheckpoint store nodeId now l1).1 nodeId now l2
      = ((createCheckpoint store nodeId now l1).1, "") := by
  unfold createCheckpoint
  cases hany : store.any (fun r => decide (r.id = checkpointId nodeId now)) with
  | true => simp [hany]
  | false => simp [hany, List.any_append]
